import Mathlib

/-!
Verification of the great-arc geometry core of this repository
(`sunpy/coordinates/great_arc.py`).

The floating-point `numpy` arithmetic of the source is modelled over the
real numbers; an (x, y, z) `numpy` triple becomes the `Vector3` structure
below. The two-argument arctangent `np.arctan2 y x` is modelled as the
argument of the complex number `x + y i`, which agrees with `atan2` at
every point of the plane, including `atan2 0 0 = 0`.
-/

namespace GreatArc

/-- A Cartesian xyz triple, the shape of the `numpy` arrays that
`great_arc.py` computes with. -/
@[ext]
structure Vector3 where
  x : ℝ
  y : ℝ
  z : ℝ

namespace Vector3

instance : Zero Vector3 := ⟨⟨0, 0, 0⟩⟩

instance : Add Vector3 := ⟨fun a b => ⟨a.x + b.x, a.y + b.y, a.z + b.z⟩⟩

instance : Sub Vector3 := ⟨fun a b => ⟨a.x - b.x, a.y - b.y, a.z - b.z⟩⟩

instance : Neg Vector3 := ⟨fun a => ⟨-a.x, -a.y, -a.z⟩⟩

instance : SMul ℝ Vector3 := ⟨fun t a => ⟨t * a.x, t * a.y, t * a.z⟩⟩

instance : Inhabited Vector3 := ⟨0⟩

@[simp] theorem zero_x : (0 : Vector3).x = 0 := rfl

@[simp] theorem zero_y : (0 : Vector3).y = 0 := rfl

@[simp] theorem zero_z : (0 : Vector3).z = 0 := rfl

@[simp] theorem add_x (a b : Vector3) : (a + b).x = a.x + b.x := rfl

@[simp] theorem add_y (a b : Vector3) : (a + b).y = a.y + b.y := rfl

@[simp] theorem add_z (a b : Vector3) : (a + b).z = a.z + b.z := rfl

@[simp] theorem sub_x (a b : Vector3) : (a - b).x = a.x - b.x := rfl

@[simp] theorem sub_y (a b : Vector3) : (a - b).y = a.y - b.y := rfl

@[simp] theorem sub_z (a b : Vector3) : (a - b).z = a.z - b.z := rfl

@[simp] theorem smul_x (t : ℝ) (a : Vector3) : (t • a).x = t * a.x := rfl

@[simp] theorem smul_y (t : ℝ) (a : Vector3) : (t • a).y = t * a.y := rfl

@[simp] theorem smul_z (t : ℝ) (a : Vector3) : (t • a).z = t * a.z := rfl

@[simp] theorem neg_x (a : Vector3) : (-a).x = -a.x := rfl

@[simp] theorem neg_y (a : Vector3) : (-a).y = -a.y := rfl

@[simp] theorem neg_z (a : Vector3) : (-a).z = -a.z := rfl

end Vector3

/-- `np.dot` of two xyz triples. -/
def dot (a b : Vector3) : ℝ := a.x * b.x + a.y * b.y + a.z * b.z

/-- `np.cross` of two xyz triples. -/
def cross (a b : Vector3) : Vector3 :=
  ⟨a.y * b.z - a.z * b.y, a.z * b.x - a.x * b.z, a.x * b.y - a.y * b.x⟩

/-- `np.linalg.norm` of an xyz triple: the Euclidean length. -/
noncomputable def norm (a : Vector3) : ℝ := Real.sqrt (dot a a)

/-- `np.arctan2 y x`, modelled as the argument of the complex number
`x + y i`.  Both functions send `(0, 0)` to `0`, positive reals to `0`,
negative reals to `π`, and agree on every other input. -/
noncomputable def atan2 (y x : ℝ) : ℝ := Complex.arg ⟨x, y⟩

/-- The attributes computed by the constructor of
`GreatArcPropertiesCartesian` in `great_arc.py`. -/
structure GreatArcPropertiesCartesian where
  start_cartesian : Vector3
  end_cartesian : Vector3
  center_cartesian : Vector3
  v1 : Vector3
  r : ℝ
  v2 : Vector3
  v3 : Vector3
  inner_angle : ℝ
  distance : ℝ

/-- The constructor body of `GreatArcPropertiesCartesian`
(`great_arc.py`, lines 163-212), translated attribute by attribute:
`v1 = start - center`; `r = ‖v1‖`; `v2 = end - center`;
`v3 = cross(cross(v1, v2), v1)` rescaled by `r / ‖v3‖`;
`inner_angle = arctan2(‖cross(v1, v2)‖, dot(v1, v2))`;
`distance = r * inner_angle`.  The constructor performs no validation
and raises nothing. -/
noncomputable def greatArcProperties (s e c : Vector3) : GreatArcPropertiesCartesian :=
  let v1 := s - c
  let r := norm v1
  let v2 := e - c
  let v3a := cross (cross v1 v2) v1
  let v3 := (r / norm v3a) • v3a
  let inner_angle := atan2 (norm (cross v1 v2)) (dot v1 v2)
  ⟨s, e, c, v1, r, v2, v3, inner_angle, r * inner_angle⟩

/-- `np.linspace 0 stop num` with the default inclusive endpoint:
`num` evenly spaced reals from `0` to `stop`.  For `num = 1` the sole
sample is the start `0` (the formula below yields `0 / 0 = 0` there,
matching `numpy`); for `num = 0` the list is empty. -/
noncomputable def linspace (stop : ℝ) (num : ℕ) : List ℝ :=
  (List.range num).map (fun i : ℕ => stop * (i : ℝ) / ((num : ℝ) - 1))

/-- `calculate_great_arc` (`great_arc.py`, lines 126-160): build the
geometry, range the inner angle through `np.linspace 0 inner_angle
number_points`, and return `v1 * cos θ + v3 * sin θ + center` for each
sampled angle `θ`.  The function performs no validation of
`number_points`; `number_points = 0` flows through `np.linspace` and
yields an empty array. -/
noncomputable def calculate_great_arc (s e c : Vector3) (number_points : ℕ) :
    List Vector3 :=
  let g := greatArcProperties s e c
  (linspace g.inner_angle number_points).map
    (fun θ => Real.cos θ • g.v1 + Real.sin θ • g.v3 + c)

/-- The error kinds named by the specification.  The source of
`great_arc.py` never raises either of them. -/
inductive GreatArcError
  | degenerateArc
  | invalidArgument

/-- The specification's `compute_geometry` operation, which may return a
`DegenerateArcError`.  The source constructor performs no degeneracy
check, so the translation always returns `Except.ok`. -/
noncomputable def computeGeometry (s e c : Vector3) :
    Except GreatArcError GreatArcPropertiesCartesian :=
  Except.ok (greatArcProperties s e c)

/-- The specification's `sample_arc` operation, which may return an
`InvalidArgumentError` for a bad count.  The source performs no count
check, so the translation always returns `Except.ok`. -/
noncomputable def sample_arc (s e c : Vector3) (count : ℕ) :
    Except GreatArcError (List Vector3) :=
  Except.ok (calculate_great_arc s e c count)

/-- The exception raised by reading a never-assigned Python attribute. -/
inductive PyError
  | attributeError

/-- The Cartesian triples extracted by `HelperGreatArcConvertToCartesian`. -/
structure HelperResult where
  start_cartesian : Vector3
  end_cartesian : Vector3
  center_cartesian : Vector3

/-- The constructor of `HelperGreatArcConvertToCartesian`
(`great_arc.py`, lines 215-250), at the level of Cartesian triples (the
astropy frame and unit conversions are the external coordinate-frame
adapter and act as the identity on already-flat triples in one common
unit).  The attribute `c` is assigned only in the `center is None`
branch, yet is read unconditionally to build `center_cartesian`; the
`Option` value below records whether `c` was ever assigned, and reading
an unassigned attribute is an `AttributeError`. -/
def helperConvertToCartesian (s e : Vector3) (center : Option Vector3) :
    Except PyError HelperResult :=
  let c : Option Vector3 :=
    match center with
    | none => some 0
    | some _ => none
  match c with
  | none => Except.error PyError.attributeError
  | some cc => Except.ok ⟨s, e, cc⟩

/-- `great_arc_distance` (`great_arc.py`, lines 66-92): convert through
the helper, build the geometry, return its `distance`. -/
noncomputable def great_arc_distance (s e : Vector3) (center : Option Vector3) :
    Except PyError ℝ :=
  match helperConvertToCartesian s e center with
  | Except.error err => Except.error err
  | Except.ok h =>
      Except.ok (greatArcProperties h.start_cartesian h.end_cartesian
        h.center_cartesian).distance

/-- The unit attached to the value returned by
`great_arc_angular_separation` (`u.degree` in the source). -/
inductive AngleUnit
  | degree

/-- `np.rad2deg`: multiply by `180 / π`. -/
noncomputable def rad2deg (a : ℝ) : ℝ := a * (180 / Real.pi)

/-- `great_arc_angular_separation` (`great_arc.py`, lines 95-123):
convert through the helper, build the geometry, and return
`np.rad2deg(inner_angle) * u.degree` — a value-unit pair whose scalar
is the inner angle converted to degrees. -/
noncomputable def great_arc_angular_separation (s e : Vector3)
    (center : Option Vector3) : Except PyError (ℝ × AngleUnit) :=
  match helperConvertToCartesian s e center with
  | Except.error err => Except.error err
  | Except.ok h =>
      Except.ok (rad2deg (greatArcProperties h.start_cartesian h.end_cartesian
        h.center_cartesian).inner_angle, AngleUnit.degree)

/-- `great_arc` (`great_arc.py`, lines 13-63), at the Cartesian level:
convert through the helper and sample `number_points` points. -/
noncomputable def great_arc (s e : Vector3) (center : Option Vector3)
    (number_points : ℕ) : Except PyError (List Vector3) :=
  match helperConvertToCartesian s e center with
  | Except.error err => Except.error err
  | Except.ok h =>
      Except.ok (calculate_great_arc h.start_cartesian h.end_cartesian
        h.center_cartesian number_points)

/-! ### Vector algebra lemmas -/

theorem dot_self_nonneg (a : Vector3) : 0 ≤ dot a a := by
  unfold dot
  nlinarith [sq_nonneg a.x, sq_nonneg a.y, sq_nonneg a.z]

theorem dot_self_eq_zero_iff (a : Vector3) : dot a a = 0 ↔ a = 0 := by
  constructor
  · intro h
    unfold dot at h
    ext
    · show a.x = (0 : ℝ)
      nlinarith [sq_nonneg a.x, sq_nonneg a.y, sq_nonneg a.z]
    · show a.y = (0 : ℝ)
      nlinarith [sq_nonneg a.x, sq_nonneg a.y, sq_nonneg a.z]
    · show a.z = (0 : ℝ)
      nlinarith [sq_nonneg a.x, sq_nonneg a.y, sq_nonneg a.z]
  · intro h
    subst h
    simp [dot]

theorem norm_nonneg' (a : Vector3) : 0 ≤ norm a := Real.sqrt_nonneg _

theorem sq_norm (a : Vector3) : norm a ^ 2 = dot a a :=
  Real.sq_sqrt (dot_self_nonneg a)

theorem norm_eq_zero_iff (a : Vector3) : norm a = 0 ↔ a = 0 := by
  unfold norm
  rw [Real.sqrt_eq_zero (dot_self_nonneg a)]
  exact dot_self_eq_zero_iff a

theorem norm_pos_of_ne_zero {a : Vector3} (h : a ≠ 0) : 0 < norm a := by
  rcases lt_or_eq_of_le (norm_nonneg' a) with h' | h'
  · exact h'
  · exact absurd ((norm_eq_zero_iff a).mp h'.symm) h

theorem cross_zero_left (b : Vector3) : cross 0 b = 0 := by
  ext <;> simp [cross]

/-- The vector triple product: `(v1 × v2) × v1 = (v1·v1) v2 − (v1·v2) v1`. -/
theorem cross_cross_self (a b : Vector3) :
    cross (cross a b) a = dot a a • b - dot a b • a := by
  ext <;> simp [cross, dot] <;> ring

/-- Lagrange's identity: `‖a × b‖² = (a·a)(b·b) − (a·b)²` at the level of
dot products. -/
theorem dot_cross_self (a b : Vector3) :
    dot (cross a b) (cross a b) = dot a a * dot b b - dot a b ^ 2 := by
  simp only [cross, dot]
  ring

theorem cross_anticomm (a b : Vector3) : cross b a = -cross a b := by
  ext <;> simp [cross] <;> ring

theorem norm_neg' (a : Vector3) : norm (-a) = norm a := by
  unfold norm
  congr 1
  simp only [dot]
  have hx : (-a).x = -a.x := rfl
  have hy : (-a).y = -a.y := rfl
  have hz : (-a).z = -a.z := rfl
  rw [hx, hy, hz]
  ring

theorem norm_smul' (t : ℝ) (a : Vector3) : norm (t • a) = |t| * norm a := by
  unfold norm
  have h : dot (t • a) (t • a) = t ^ 2 * dot a a := by
    simp only [dot, Vector3.smul_x, Vector3.smul_y, Vector3.smul_z]
    ring
  rw [h, Real.sqrt_mul (sq_nonneg t), Real.sqrt_sq_eq_abs]

/-- `‖(v1 × v2) × v1‖ = ‖v1‖ ‖v1 × v2‖`. -/
theorem norm_cross_cross_self (a b : Vector3) :
    norm (cross (cross a b) a) = norm a * norm (cross a b) := by
  unfold norm
  rw [← Real.sqrt_mul (dot_self_nonneg a)]
  congr 1
  simp only [cross, dot]
  ring

theorem dot_self_cross_cross (a b : Vector3) :
    dot a (cross (cross a b) a) = 0 := by
  simp only [cross, dot]
  ring

theorem dot_comm (a b : Vector3) : dot a b = dot b a := by
  simp only [dot]
  ring

theorem cross_zero_right (a : Vector3) : cross a 0 = 0 := by
  ext <;> simp [cross]

theorem neg_eq_zero_iff (a : Vector3) : -a = 0 ↔ a = 0 := by
  constructor
  · intro h
    ext
    · have := congrArg Vector3.x h
      simp at this
      simpa using this
    · have := congrArg Vector3.y h
      simp at this
      simpa using this
    · have := congrArg Vector3.z h
      simp at this
      simpa using this
  · intro h
    subst h
    ext <;> simp

theorem left_ne_zero_of_cross {a b : Vector3} (h : cross a b ≠ 0) : a ≠ 0 := by
  intro ha
  exact h (by rw [ha, cross_zero_left])

theorem right_ne_zero_of_cross {a b : Vector3} (h : cross a b ≠ 0) : b ≠ 0 := by
  intro hb
  exact h (by rw [hb, cross_zero_right])

/-! ### The inner angle -/

theorem atan2_nonneg {y x : ℝ} (hy : 0 ≤ y) : 0 ≤ atan2 y x :=
  Complex.arg_nonneg_iff.mpr hy

theorem atan2_le_pi (y x : ℝ) : atan2 y x ≤ Real.pi :=
  Complex.arg_le_pi _

/-- With equal radii (`dot v1 v1 = dot v2 v2`) and a non-degenerate pair,
the cosine and sine of the inner angle are `dot v1 v2 / dot v1 v1` and
`‖cross v1 v2‖ / dot v1 v1`. -/
theorem cos_sin_atan2 (v1 v2 : Vector3) (hc : cross v1 v2 ≠ 0)
    (he : dot v1 v1 = dot v2 v2) :
    Real.cos (atan2 (norm (cross v1 v2)) (dot v1 v2)) =
      dot v1 v2 / dot v1 v1 ∧
    Real.sin (atan2 (norm (cross v1 v2)) (dot v1 v2)) =
      norm (cross v1 v2) / dot v1 v1 := by
  have hnn : 0 < norm (cross v1 v2) := norm_pos_of_ne_zero hc
  have hz : (⟨dot v1 v2, norm (cross v1 v2)⟩ : ℂ) ≠ 0 := by
    intro h
    rw [Complex.ext_iff] at h
    exact absurd h.2 (ne_of_gt hnn)
  have habs : Complex.abs ⟨dot v1 v2, norm (cross v1 v2)⟩ = dot v1 v1 := by
    rw [Complex.abs_apply, Complex.normSq_mk]
    have h1 : norm (cross v1 v2) * norm (cross v1 v2) = dot v1 v1 * dot v2 v2 -
        dot v1 v2 ^ 2 := by
      have h2 := sq_norm (cross v1 v2)
      nlinarith [dot_cross_self v1 v2]
    rw [h1, ← he]
    have h3 : dot v1 v2 * dot v1 v2 + (dot v1 v1 * dot v1 v1 - dot v1 v2 ^ 2) =
        dot v1 v1 ^ 2 := by ring
    rw [h3, Real.sqrt_sq (dot_self_nonneg v1)]
  constructor
  · rw [atan2, Complex.cos_arg hz, habs]
  · rw [atan2, Complex.sin_arg, habs]

/-- Rotating `v1` by the inner angle in the `(v1, v3)` basis lands exactly
on `v2`, provided the pair is non-degenerate and the radii agree. -/
theorem arc_endpoint (v1 v2 : Vector3) (hc : cross v1 v2 ≠ 0)
    (he : dot v1 v1 = dot v2 v2) :
    Real.cos (atan2 (norm (cross v1 v2)) (dot v1 v2)) • v1 +
      Real.sin (atan2 (norm (cross v1 v2)) (dot v1 v2)) •
        ((norm v1 / norm (cross (cross v1 v2) v1)) • cross (cross v1 v2) v1) =
      v2 := by
  obtain ⟨hcos, hsin⟩ := cos_sin_atan2 v1 v2 hc he
  have hv1 : v1 ≠ 0 := left_ne_zero_of_cross hc
  have hr : 0 < norm v1 := norm_pos_of_ne_zero hv1
  have hnn : 0 < norm (cross v1 v2) := norm_pos_of_ne_zero hc
  have hrho : 0 < dot v1 v1 := by
    rw [← sq_norm]
    positivity
  rw [hcos, hsin, norm_cross_cross_self, cross_cross_self]
  have hr' : norm v1 ≠ 0 := ne_of_gt hr
  have hnn' : norm (cross v1 v2) ≠ 0 := ne_of_gt hnn
  have hrho' : dot v1 v1 ≠ 0 := ne_of_gt hrho
  ext
  · show _ = v2.x
    simp only [Vector3.add_x, Vector3.sub_x, Vector3.smul_x]
    field_simp
    ring
  · show _ = v2.y
    simp only [Vector3.add_y, Vector3.sub_y, Vector3.smul_y]
    field_simp
    ring
  · show _ = v2.z
    simp only [Vector3.add_z, Vector3.sub_z, Vector3.smul_z]
    field_simp
    ring

/-- Swapping start and end leaves the inner angle unchanged. -/
theorem atan2_swap (v1 v2 : Vector3) :
    atan2 (norm (cross v2 v1)) (dot v2 v1) =
      atan2 (norm (cross v1 v2)) (dot v1 v2) := by
  rw [cross_anticomm, norm_neg', dot_comm]

/-- The `v3` basis vector of the swapped arc, expressed in the original
`(v1, v3)` basis: `v3' = sin α • v1 − cos α • v3`. -/
theorem arc_reverse_basis (v1 v2 : Vector3) (hc : cross v1 v2 ≠ 0)
    (he : dot v1 v1 = dot v2 v2) :
    Real.sin (atan2 (norm (cross v1 v2)) (dot v1 v2)) • v1 -
      Real.cos (atan2 (norm (cross v1 v2)) (dot v1 v2)) •
        ((norm v1 / norm (cross (cross v1 v2) v1)) • cross (cross v1 v2) v1) =
      (norm v2 / norm (cross (cross v2 v1) v2)) • cross (cross v2 v1) v2 := by
  obtain ⟨hcos, hsin⟩ := cos_sin_atan2 v1 v2 hc he
  have hv1 : v1 ≠ 0 := left_ne_zero_of_cross hc
  have hr : 0 < norm v1 := norm_pos_of_ne_zero hv1
  have hnn : 0 < norm (cross v1 v2) := norm_pos_of_ne_zero hc
  have hrho : 0 < dot v1 v1 := by
    rw [← sq_norm]
    positivity
  have hnormeq : norm v2 = norm v1 := by
    unfold norm
    rw [he]
  have hcereq : norm (cross v2 v1) = norm (cross v1 v2) := by
    rw [cross_anticomm, norm_neg']
  have hlag : norm (cross v1 v2) * norm (cross v1 v2) =
      norm v1 ^ 2 * norm v1 ^ 2 - dot v1 v2 * dot v1 v2 := by
    have h2 := sq_norm (cross v1 v2)
    have h3 := sq_norm v1
    nlinarith [dot_cross_self v1 v2, he]
  rw [hcos, hsin, norm_cross_cross_self, cross_cross_self,
    norm_cross_cross_self, cross_cross_self, hnormeq, hcereq, ← he,
    dot_comm v2 v1,
    show dot v1 v1 = norm v1 ^ 2 from (sq_norm v1).symm]
  have hr' : norm v1 ≠ 0 := ne_of_gt hr
  have hnn' : norm (cross v1 v2) ≠ 0 := ne_of_gt hnn
  ext
  · simp only [Vector3.sub_x, Vector3.smul_x]
    field_simp
    linear_combination (norm (cross v1 v2) * v1.x * norm v1 ^ 4) * hlag
  · simp only [Vector3.sub_y, Vector3.smul_y]
    field_simp
    linear_combination (norm (cross v1 v2) * v1.y * norm v1 ^ 4) * hlag
  · simp only [Vector3.sub_z, Vector3.smul_z]
    field_simp
    linear_combination (norm (cross v1 v2) * v1.z * norm v1 ^ 4) * hlag

/-! ### Unfolding the geometry fields -/

theorem gap_v1 (s e c : Vector3) : (greatArcProperties s e c).v1 = s - c := rfl

theorem gap_v2 (s e c : Vector3) : (greatArcProperties s e c).v2 = e - c := rfl

theorem gap_r (s e c : Vector3) :
    (greatArcProperties s e c).r = norm (s - c) := rfl

theorem gap_v3 (s e c : Vector3) :
    (greatArcProperties s e c).v3 =
      (norm (s - c) / norm (cross (cross (s - c) (e - c)) (s - c))) •
        cross (cross (s - c) (e - c)) (s - c) := rfl

theorem gap_inner_angle (s e c : Vector3) :
    (greatArcProperties s e c).inner_angle =
      atan2 (norm (cross (s - c) (e - c))) (dot (s - c) (e - c)) := rfl

theorem gap_distance (s e c : Vector3) :
    (greatArcProperties s e c).distance =
      norm (s - c) *
        atan2 (norm (cross (s - c) (e - c))) (dot (s - c) (e - c)) := rfl

/-! ### The sampled arc, pointwise -/

theorem calculate_great_arc_length (s e c : Vector3) (n : ℕ) :
    (calculate_great_arc s e c n).length = n := by
  simp only [calculate_great_arc, linspace, List.length_map, List.length_range]

theorem calculate_great_arc_get (s e c : Vector3) {n i : ℕ} (hi : i < n) :
    (calculate_great_arc s e c n)[i]? =
      some (Real.cos ((greatArcProperties s e c).inner_angle * i / ((n : ℝ) - 1)) •
          (greatArcProperties s e c).v1 +
        Real.sin ((greatArcProperties s e c).inner_angle * i / ((n : ℝ) - 1)) •
          (greatArcProperties s e c).v3 + c) := by
  simp only [calculate_great_arc, linspace, List.getElem?_map,
    List.getElem?_range hi, Option.map_some']

/-- The sample at angle `0` is the start point. -/
theorem sample_at_zero (s e c : Vector3) :
    Real.cos 0 • (greatArcProperties s e c).v1 +
      Real.sin 0 • (greatArcProperties s e c).v3 + c = s := by
  rw [Real.cos_zero, Real.sin_zero, gap_v1]
  ext <;> simp

/-- The sample at the full inner angle is the end point, given a
non-degenerate pair with equal radii. -/
theorem sample_at_inner_angle (s e c : Vector3)
    (hc : cross (s - c) (e - c) ≠ 0)
    (he : norm (s - c) = norm (e - c)) :
    Real.cos (greatArcProperties s e c).inner_angle •
        (greatArcProperties s e c).v1 +
      Real.sin (greatArcProperties s e c).inner_angle •
        (greatArcProperties s e c).v3 + c = e := by
  have he' : dot (s - c) (s - c) = dot (e - c) (e - c) := by
    rw [← sq_norm, ← sq_norm, he]
  rw [gap_inner_angle, gap_v1, gap_v3]
  have h := arc_endpoint (s - c) (e - c) hc he'
  rw [h]
  ext <;> simp

theorem atan2_pos_zero {y : ℝ} (hy : 0 < y) : atan2 y 0 = Real.pi / 2 := by
  rw [atan2]
  exact Complex.arg_eq_pi_div_two_iff.mpr ⟨rfl, hy⟩

/-- A single-point sample is the singleton start point, for any inputs:
`np.linspace 0 a 1 = [0]` and the sample at angle `0` is `start`. -/
theorem calc_one (s e c : Vector3) : calculate_great_arc s e c 1 = [s] := by
  have h0 := sample_at_zero s e c
  have hr1 : List.range 1 = [0] := rfl
  simp only [calculate_great_arc, linspace, hr1, List.map_cons,
    List.map_nil, Nat.cast_zero, mul_zero, zero_div]
  rw [h0]

/-- A two-point sample is the start point followed by the sample at the
full inner angle. -/
theorem calc_two (s e c : Vector3) :
    calculate_great_arc s e c 2 =
      [s, Real.cos (greatArcProperties s e c).inner_angle •
            (greatArcProperties s e c).v1 +
          Real.sin (greatArcProperties s e c).inner_angle •
            (greatArcProperties s e c).v3 + c] := by
  have h0 := sample_at_zero s e c
  have hr2 : List.range 2 = [0, 1] := rfl
  simp only [calculate_great_arc, linspace, hr2, List.map_cons, List.map_nil,
    Nat.cast_zero, mul_zero, zero_div, Nat.cast_one, Nat.cast_ofNat]
  rw [h0]
  norm_num

theorem atan2_zero_neg {x : ℝ} (hx : x < 0) : atan2 0 x = Real.pi := by
  rw [atan2]
  have h : (⟨x, 0⟩ : ℂ) = (x : ℂ) := Complex.ext rfl rfl
  rw [h]
  exact Complex.arg_ofReal_of_neg hx

/-! ### Concrete evaluations -/

theorem sub_zero_triple (a b c : ℝ) :
    (⟨a, b, c⟩ : Vector3) - ⟨0, 0, 0⟩ = ⟨a, b, c⟩ := by
  ext <;> simp

theorem norm_unit_x : norm ⟨1, 0, 0⟩ = 1 := by
  simp [norm, dot]

theorem norm_two_y : norm ⟨0, 2, 0⟩ = 2 := by
  rw [norm, show dot (⟨0, 2, 0⟩ : Vector3) ⟨0, 2, 0⟩ = 4 by norm_num [dot],
    show (4 : ℝ) = 2 ^ 2 by norm_num, Real.sqrt_sq (by norm_num : (0 : ℝ) ≤ 2)]

/-- The geometry of the quarter arc from `(1,0,0)` to `(0,2,0)` about the
origin: the radii are unequal (`1` versus `2`), the inner angle is `π/2`,
and the basis vector `v3` has length `1`, so the second of two samples is
`(0,1,0)`, not the end point `(0,2,0)`. -/
theorem arc_two_unequal :
    calculate_great_arc ⟨1, 0, 0⟩ ⟨0, 2, 0⟩ ⟨0, 0, 0⟩ 2 =
      [⟨1, 0, 0⟩, ⟨0, 1, 0⟩] := by
  rw [calc_two]
  have h1 := sub_zero_triple 1 0 0
  have h2 := sub_zero_triple 0 2 0
  have hcr : cross (⟨1, 0, 0⟩ : Vector3) ⟨0, 2, 0⟩ = ⟨0, 0, 2⟩ := by
    ext <;> norm_num [cross]
  have hd : dot (⟨1, 0, 0⟩ : Vector3) ⟨0, 2, 0⟩ = 0 := by norm_num [dot]
  have hncr : norm (⟨0, 0, 2⟩ : Vector3) = 2 := by
    rw [norm, show dot (⟨0, 0, 2⟩ : Vector3) ⟨0, 0, 2⟩ = 4 by norm_num [dot],
      show (4 : ℝ) = 2 ^ 2 by norm_num, Real.sqrt_sq (by norm_num : (0 : ℝ) ≤ 2)]
  have hangle : (greatArcProperties ⟨1, 0, 0⟩ ⟨0, 2, 0⟩ ⟨0, 0, 0⟩).inner_angle =
      Real.pi / 2 := by
    rw [gap_inner_angle, h1, h2, hcr, hd, hncr]
    exact atan2_pos_zero (by norm_num)
  have hv1 : (greatArcProperties ⟨1, 0, 0⟩ ⟨0, 2, 0⟩ ⟨0, 0, 0⟩).v1 =
      ⟨1, 0, 0⟩ := by
    rw [gap_v1, h1]
  have hw : cross (⟨0, 0, 2⟩ : Vector3) ⟨1, 0, 0⟩ = ⟨0, 2, 0⟩ := by
    ext <;> norm_num [cross]
  have hv3 : (greatArcProperties ⟨1, 0, 0⟩ ⟨0, 2, 0⟩ ⟨0, 0, 0⟩).v3 =
      ⟨0, 1, 0⟩ := by
    rw [gap_v3, h1, h2, hcr, hw, norm_unit_x, norm_two_y]
    ext <;> norm_num
  rw [hangle, hv1, hv3, Real.cos_pi_div_two, Real.sin_pi_div_two]
  have hpt : (0 : ℝ) • (⟨1, 0, 0⟩ : Vector3) + (1 : ℝ) • (⟨0, 1, 0⟩ : Vector3) +
      ⟨0, 0, 0⟩ = ⟨0, 1, 0⟩ := by
    ext <;> norm_num
  rw [hpt]

/-- The quarter arc sampled in the opposite direction, from `(0,2,0)` to
`(1,0,0)` about the origin: the two samples are `(0,2,0)` and `(2,0,0)`. -/
theorem arc_two_swapped :
    calculate_great_arc ⟨0, 2, 0⟩ ⟨1, 0, 0⟩ ⟨0, 0, 0⟩ 2 =
      [⟨0, 2, 0⟩, ⟨2, 0, 0⟩] := by
  rw [calc_two]
  have h1 := sub_zero_triple 0 2 0
  have h2 := sub_zero_triple 1 0 0
  have hcr : cross (⟨0, 2, 0⟩ : Vector3) ⟨1, 0, 0⟩ = ⟨0, 0, -2⟩ := by
    ext <;> norm_num [cross]
  have hd : dot (⟨0, 2, 0⟩ : Vector3) ⟨1, 0, 0⟩ = 0 := by norm_num [dot]
  have hncr : norm (⟨0, 0, -2⟩ : Vector3) = 2 := by
    rw [norm, show dot (⟨0, 0, -2⟩ : Vector3) ⟨0, 0, -2⟩ = 4 by norm_num [dot],
      show (4 : ℝ) = 2 ^ 2 by norm_num, Real.sqrt_sq (by norm_num : (0 : ℝ) ≤ 2)]
  have hangle : (greatArcProperties ⟨0, 2, 0⟩ ⟨1, 0, 0⟩ ⟨0, 0, 0⟩).inner_angle =
      Real.pi / 2 := by
    rw [gap_inner_angle, h1, h2, hcr, hd, hncr]
    exact atan2_pos_zero (by norm_num)
  have hv1 : (greatArcProperties ⟨0, 2, 0⟩ ⟨1, 0, 0⟩ ⟨0, 0, 0⟩).v1 =
      ⟨0, 2, 0⟩ := by
    rw [gap_v1, h1]
  have hw : cross (⟨0, 0, -2⟩ : Vector3) ⟨0, 2, 0⟩ = ⟨4, 0, 0⟩ := by
    ext <;> norm_num [cross]
  have hnw : norm (⟨4, 0, 0⟩ : Vector3) = 4 := by
    rw [norm, show dot (⟨4, 0, 0⟩ : Vector3) ⟨4, 0, 0⟩ = 16 by norm_num [dot],
      show (16 : ℝ) = 4 ^ 2 by norm_num, Real.sqrt_sq (by norm_num : (0 : ℝ) ≤ 4)]
  have hv3 : (greatArcProperties ⟨0, 2, 0⟩ ⟨1, 0, 0⟩ ⟨0, 0, 0⟩).v3 =
      ⟨2, 0, 0⟩ := by
    rw [gap_v3, h1, h2, hcr, hw, norm_two_y, hnw]
    ext <;> norm_num
  rw [hangle, hv1, hv3, Real.cos_pi_div_two, Real.sin_pi_div_two]
  have hpt : (0 : ℝ) • (⟨0, 2, 0⟩ : Vector3) + (1 : ℝ) • (⟨2, 0, 0⟩ : Vector3) +
      ⟨0, 0, 0⟩ = ⟨2, 0, 0⟩ := by
    ext <;> norm_num
  rw [hpt]

/-- The geometry of the unit quarter arc from `(1,0,0)` to `(0,1,0)`
about the origin has inner angle `π/2`. -/
theorem unit_quarter_inner_angle :
    (greatArcProperties ⟨1, 0, 0⟩ ⟨0, 1, 0⟩ ⟨0, 0, 0⟩).inner_angle =
      Real.pi / 2 := by
  have h1 := sub_zero_triple 1 0 0
  have h2 := sub_zero_triple 0 1 0
  have hcr : cross (⟨1, 0, 0⟩ : Vector3) ⟨0, 1, 0⟩ = ⟨0, 0, 1⟩ := by
    ext <;> norm_num [cross]
  have hd : dot (⟨1, 0, 0⟩ : Vector3) ⟨0, 1, 0⟩ = 0 := by norm_num [dot]
  have hncr : norm (⟨0, 0, 1⟩ : Vector3) = 1 := by simp [norm, dot]
  rw [gap_inner_angle, h1, h2, hcr, hd, hncr]
  exact atan2_pos_zero (by norm_num)

/-! ### The v3 basis vector -/

theorem dot_smul_right (t : ℝ) (a b : Vector3) : dot a (t • b) = t * dot a b := by
  simp only [dot, Vector3.smul_x, Vector3.smul_y, Vector3.smul_z]
  ring

/-- `v1` is orthogonal to `v3`, with no hypotheses at all: `v3` is a
scalar multiple of `(v1 × v2) × v1`. -/
theorem v1_dot_v3 (s e c : Vector3) :
    dot (greatArcProperties s e c).v1 (greatArcProperties s e c).v3 = 0 := by
  rw [gap_v1, gap_v3, dot_smul_right, dot_self_cross_cross, mul_zero]

/-- In the non-degenerate case, `v3` has the same length as `v1`. -/
theorem norm_v3 (s e c : Vector3) (hc : cross (s - c) (e - c) ≠ 0) :
    norm (greatArcProperties s e c).v3 = norm (s - c) := by
  have hv1 : (s - c) ≠ 0 := left_ne_zero_of_cross hc
  have hr : 0 < norm (s - c) := norm_pos_of_ne_zero hv1
  have hnn : 0 < norm (cross (s - c) (e - c)) := norm_pos_of_ne_zero hc
  have hw : 0 < norm (cross (cross (s - c) (e - c)) (s - c)) := by
    rw [norm_cross_cross_self]
    positivity
  rw [gap_v3, norm_smul', abs_of_nonneg (div_nonneg hr.le hw.le),
    div_mul_cancel₀ _ (ne_of_gt hw)]

theorem dot_expand (a b : ℝ) (u w : Vector3) :
    dot (a • u + b • w) (a • u + b • w) =
      a ^ 2 * dot u u + 2 * a * b * dot u w + b ^ 2 * dot w w := by
  simp only [dot, Vector3.add_x, Vector3.add_y, Vector3.add_z,
    Vector3.smul_x, Vector3.smul_y, Vector3.smul_z]
  ring

/-- Every point of the parameterization `cos θ • v1 + sin θ • v3 + c`
lies at distance `r` from the center. -/
theorem sample_norm (s e c : Vector3) (hc : cross (s - c) (e - c) ≠ 0)
    (θ : ℝ) :
    norm ((Real.cos θ • (greatArcProperties s e c).v1 +
      Real.sin θ • (greatArcProperties s e c).v3 + c) - c) = norm (s - c) := by
  have hsub : (Real.cos θ • (greatArcProperties s e c).v1 +
      Real.sin θ • (greatArcProperties s e c).v3 + c) - c =
      Real.cos θ • (greatArcProperties s e c).v1 +
        Real.sin θ • (greatArcProperties s e c).v3 := by
    ext <;> simp
  rw [hsub]
  have horth := v1_dot_v3 s e c
  have hn3 : dot (greatArcProperties s e c).v3 (greatArcProperties s e c).v3 =
      dot (s - c) (s - c) := by
    rw [← sq_norm, ← sq_norm, norm_v3 s e c hc]
  unfold norm
  congr 1
  rw [gap_v1] at horth
  rw [dot_expand, gap_v1, horth, hn3]
  have hpyth : Real.cos θ ^ 2 + Real.sin θ ^ 2 = 1 := Real.cos_sq_add_sin_sq θ
  linear_combination dot (s - c) (s - c) * hpyth

/-- The first sample is the start point, for every positive count. -/
theorem calc_head (s e c : Vector3) {n : ℕ} (hn : 1 ≤ n) :
    (calculate_great_arc s e c n)[0]? = some s := by
  rw [calculate_great_arc_get s e c (lt_of_lt_of_le zero_lt_one hn)]
  simp only [Nat.cast_zero, mul_zero, zero_div]
  rw [sample_at_zero]

/-- The last sample is the end point when at least two points are
requested, the pair is non-degenerate, and the radii agree. -/
theorem calc_last (s e c : Vector3) (hc : cross (s - c) (e - c) ≠ 0)
    (he : norm (s - c) = norm (e - c)) {n : ℕ} (hn : 2 ≤ n) :
    (calculate_great_arc s e c n)[n - 1]? = some e := by
  have hlt : n - 1 < n := Nat.sub_lt (by omega) one_pos
  rw [calculate_great_arc_get s e c hlt]
  have hcast : ((n - 1 : ℕ) : ℝ) = (n : ℝ) - 1 := by
    rw [Nat.cast_sub (by omega)]
    simp
  have hne : ((n : ℝ) - 1) ≠ 0 := by
    have h2 : (2 : ℝ) ≤ (n : ℝ) := by exact_mod_cast hn
    linarith
  rw [hcast, mul_div_assoc, div_self hne, mul_one,
    sample_at_inner_angle s e c hc he]

/-- The unit quarter arc from `(1,0,0)` to `(0,1,0)` about the origin is
non-degenerate. -/
theorem unit_quarter_nondegenerate :
    cross ((⟨1, 0, 0⟩ : Vector3) - ⟨0, 0, 0⟩)
      ((⟨0, 1, 0⟩ : Vector3) - ⟨0, 0, 0⟩) ≠ 0 := by
  rw [sub_zero_triple, sub_zero_triple,
    show cross (⟨1, 0, 0⟩ : Vector3) ⟨0, 1, 0⟩ = ⟨0, 0, 1⟩ by
      ext <;> norm_num [cross]]
  intro h
  have := congrArg Vector3.z h
  simp at this

/-- The unit quarter arc has equal start and end radii. -/
theorem unit_quarter_equal_radii :
    norm ((⟨1, 0, 0⟩ : Vector3) - ⟨0, 0, 0⟩) =
      norm ((⟨0, 1, 0⟩ : Vector3) - ⟨0, 0, 0⟩) := by
  rw [sub_zero_triple, sub_zero_triple]
  unfold norm
  congr 1
  norm_num [dot]

theorem unit_x_sub_ne_zero : ((⟨1, 0, 0⟩ : Vector3) - ⟨0, 0, 0⟩) ≠ 0 := by
  rw [sub_zero_triple]
  intro h
  have := congrArg Vector3.x h
  simp at this

theorem unit_y_sub_ne_zero : ((⟨0, 1, 0⟩ : Vector3) - ⟨0, 0, 0⟩) ≠ 0 := by
  rw [sub_zero_triple]
  intro h
  have := congrArg Vector3.y h
  simp at this

/-! ## The claims -/

/-- Claim C2: for every pair of non-zero vectors `v1 = start − center`
and `v2 = end − center`, the computed `inner_angle` equals the
two-argument arctangent of `(‖cross(v1, v2)‖, dot(v1, v2))` and lies in
the closed interval `[0, π]`. -/
theorem claim_C2_inner_angle (s e c : Vector3)
    (h1 : s - c ≠ 0) (h2 : e - c ≠ 0) :
    (greatArcProperties s e c).inner_angle =
      atan2 (norm (cross (s - c) (e - c))) (dot (s - c) (e - c)) ∧
    0 ≤ (greatArcProperties s e c).inner_angle ∧
    (greatArcProperties s e c).inner_angle ≤ Real.pi := by
  refine ⟨gap_inner_angle s e c, ?_, ?_⟩
  · rw [gap_inner_angle]
    exact atan2_nonneg (norm_nonneg' _)
  · rw [gap_inner_angle]
    exact atan2_le_pi _ _

/-- Witness for claim C2 at the unit quarter arc. -/
theorem claim_C2_witness :
    ((⟨1, 0, 0⟩ : Vector3) - ⟨0, 0, 0⟩ ≠ 0) ∧
    ((⟨0, 1, 0⟩ : Vector3) - ⟨0, 0, 0⟩ ≠ 0) ∧
    ((greatArcProperties ⟨1, 0, 0⟩ ⟨0, 1, 0⟩ ⟨0, 0, 0⟩).inner_angle =
      atan2 (norm (cross ((⟨1, 0, 0⟩ : Vector3) - ⟨0, 0, 0⟩)
          ((⟨0, 1, 0⟩ : Vector3) - ⟨0, 0, 0⟩)))
        (dot ((⟨1, 0, 0⟩ : Vector3) - ⟨0, 0, 0⟩)
          ((⟨0, 1, 0⟩ : Vector3) - ⟨0, 0, 0⟩)) ∧
      0 ≤ (greatArcProperties ⟨1, 0, 0⟩ ⟨0, 1, 0⟩ ⟨0, 0, 0⟩).inner_angle ∧
      (greatArcProperties ⟨1, 0, 0⟩ ⟨0, 1, 0⟩ ⟨0, 0, 0⟩).inner_angle ≤ Real.pi) :=
  ⟨unit_x_sub_ne_zero, unit_y_sub_ne_zero,
    claim_C2_inner_angle ⟨1, 0, 0⟩ ⟨0, 1, 0⟩ ⟨0, 0, 0⟩
      unit_x_sub_ne_zero unit_y_sub_ne_zero⟩

/-- Claim C3: for valid inputs the computed spherical distance equals
`r · inner_angle` with `r = ‖start − center‖`, and the distance is
non-negative. -/
theorem claim_C3_distance (s e c : Vector3)
    (h1 : s - c ≠ 0) (h2 : e - c ≠ 0) :
    (greatArcProperties s e c).distance =
      (greatArcProperties s e c).r * (greatArcProperties s e c).inner_angle ∧
    0 ≤ (greatArcProperties s e c).distance := by
  refine ⟨rfl, ?_⟩
  rw [gap_distance]
  exact mul_nonneg (norm_nonneg' _) (atan2_nonneg (norm_nonneg' _))

/-- Witness for claim C3 at the unit quarter arc. -/
theorem claim_C3_witness :
    ((⟨1, 0, 0⟩ : Vector3) - ⟨0, 0, 0⟩ ≠ 0) ∧
    ((⟨0, 1, 0⟩ : Vector3) - ⟨0, 0, 0⟩ ≠ 0) ∧
    ((greatArcProperties ⟨1, 0, 0⟩ ⟨0, 1, 0⟩ ⟨0, 0, 0⟩).distance =
      (greatArcProperties ⟨1, 0, 0⟩ ⟨0, 1, 0⟩ ⟨0, 0, 0⟩).r *
        (greatArcProperties ⟨1, 0, 0⟩ ⟨0, 1, 0⟩ ⟨0, 0, 0⟩).inner_angle ∧
      0 ≤ (greatArcProperties ⟨1, 0, 0⟩ ⟨0, 1, 0⟩ ⟨0, 0, 0⟩).distance) :=
  ⟨unit_x_sub_ne_zero, unit_y_sub_ne_zero,
    claim_C3_distance ⟨1, 0, 0⟩ ⟨0, 1, 0⟩ ⟨0, 0, 0⟩
      unit_x_sub_ne_zero unit_y_sub_ne_zero⟩

/-- Claim C7: whenever a non-`None` center is supplied, the helper reads
the never-assigned attribute `c` and fails with `AttributeError`, so the
three public pipelines fail as well; the supplied center value is never
used.  With the center omitted, the helper succeeds with the origin as
center. -/
theorem claim_C7_center_attribute_error :
    (∀ s e v : Vector3, helperConvertToCartesian s e (some v) =
      Except.error PyError.attributeError) ∧
    (∀ s e v : Vector3, great_arc_distance s e (some v) =
      Except.error PyError.attributeError) ∧
    (∀ s e v : Vector3, great_arc_angular_separation s e (some v) =
      Except.error PyError.attributeError) ∧
    (∀ s e v : Vector3, ∀ n : ℕ, great_arc s e (some v) n =
      Except.error PyError.attributeError) ∧
    (∀ s e : Vector3, helperConvertToCartesian s e none = Except.ok ⟨s, e, 0⟩) :=
  ⟨fun _ _ _ => rfl, fun _ _ _ => rfl, fun _ _ _ => rfl,
    fun _ _ _ _ => rfl, fun _ _ => rfl⟩

/-- Claim C8: for non-degenerate inputs, the constructed `v3` is exactly
orthogonal to `v1` and has norm equal to `r`. -/
theorem claim_C8_basis (s e c : Vector3)
    (hc : cross (s - c) (e - c) ≠ 0) :
    dot (greatArcProperties s e c).v1 (greatArcProperties s e c).v3 = 0 ∧
    norm (greatArcProperties s e c).v3 = (greatArcProperties s e c).r := by
  refine ⟨v1_dot_v3 s e c, ?_⟩
  rw [gap_r]
  exact norm_v3 s e c hc

/-- Witness for claim C8 at the unit quarter arc. -/
theorem claim_C8_witness :
    cross ((⟨1, 0, 0⟩ : Vector3) - ⟨0, 0, 0⟩)
        ((⟨0, 1, 0⟩ : Vector3) - ⟨0, 0, 0⟩) ≠ 0 ∧
    (dot (greatArcProperties ⟨1, 0, 0⟩ ⟨0, 1, 0⟩ ⟨0, 0, 0⟩).v1
        (greatArcProperties ⟨1, 0, 0⟩ ⟨0, 1, 0⟩ ⟨0, 0, 0⟩).v3 = 0 ∧
      norm (greatArcProperties ⟨1, 0, 0⟩ ⟨0, 1, 0⟩ ⟨0, 0, 0⟩).v3 =
        (greatArcProperties ⟨1, 0, 0⟩ ⟨0, 1, 0⟩ ⟨0, 0, 0⟩).r) :=
  ⟨unit_quarter_nondegenerate,
    claim_C8_basis ⟨1, 0, 0⟩ ⟨0, 1, 0⟩ ⟨0, 0, 0⟩ unit_quarter_nondegenerate⟩

/-- Claim C9: for non-degenerate inputs, every sampled point lies at
distance `r` from the center, for every requested count. -/
theorem claim_C9_on_sphere (s e c : Vector3)
    (hc : cross (s - c) (e - c) ≠ 0) (n : ℕ) :
    ∀ p ∈ calculate_great_arc s e c n,
      norm (p - c) = (greatArcProperties s e c).r := by
  intro p hp
  simp only [calculate_great_arc, List.mem_map] at hp
  obtain ⟨θ, _, hfp⟩ := hp
  rw [← hfp, gap_r]
  exact sample_norm s e c hc θ

/-- Witness for claim C9: the sole point of the one-point sample of the
unit quarter arc is at distance `r` from the origin. -/
theorem claim_C9_witness :
    cross ((⟨1, 0, 0⟩ : Vector3) - ⟨0, 0, 0⟩)
        ((⟨0, 1, 0⟩ : Vector3) - ⟨0, 0, 0⟩) ≠ 0 ∧
    norm ((⟨1, 0, 0⟩ : Vector3) - ⟨0, 0, 0⟩) =
      (greatArcProperties ⟨1, 0, 0⟩ ⟨0, 1, 0⟩ ⟨0, 0, 0⟩).r :=
  ⟨unit_quarter_nondegenerate,
    claim_C9_on_sphere ⟨1, 0, 0⟩ ⟨0, 1, 0⟩ ⟨0, 0, 0⟩ unit_quarter_nondegenerate 1
      ⟨1, 0, 0⟩ (by rw [calc_one]; exact List.mem_singleton_self _)⟩

/-- Claim C4 counterexample: at the collinear antipodal input
`start = (1,0,0)`, `end = (−1,0,0)`, `center = (0,0,0)` the geometry
construction does not raise — it returns a result. -/
theorem claim_C4_counterexample :
    computeGeometry ⟨1, 0, 0⟩ ⟨-1, 0, 0⟩ ⟨0, 0, 0⟩ =
      Except.ok (greatArcProperties ⟨1, 0, 0⟩ ⟨-1, 0, 0⟩ ⟨0, 0, 0⟩) := rfl

/-- Claim C4 amended: the source performs no degeneracy check, so the
construction always succeeds; at the antipodal example the zero cross
product makes the `v3` normalization divide by zero, yielding the zero
vector for `v3` under the exact-arithmetic convention `x / 0 = 0` (a NaN
vector in floating point), while `inner_angle = π` and `distance = π`
are still produced. -/
theorem claim_C4_no_degeneracy_check :
    (∀ s e c : Vector3, ∃ g, computeGeometry s e c = Except.ok g) ∧
    (greatArcProperties ⟨1, 0, 0⟩ ⟨-1, 0, 0⟩ ⟨0, 0, 0⟩).inner_angle =
      Real.pi ∧
    (greatArcProperties ⟨1, 0, 0⟩ ⟨-1, 0, 0⟩ ⟨0, 0, 0⟩).v3 = 0 ∧
    (greatArcProperties ⟨1, 0, 0⟩ ⟨-1, 0, 0⟩ ⟨0, 0, 0⟩).distance = Real.pi := by
  have h1 := sub_zero_triple 1 0 0
  have h2 := sub_zero_triple (-1) 0 0
  have hcr : cross (⟨1, 0, 0⟩ : Vector3) ⟨-1, 0, 0⟩ = 0 := by
    ext <;> norm_num [cross]
  have hd : dot (⟨1, 0, 0⟩ : Vector3) ⟨-1, 0, 0⟩ = -1 := by norm_num [dot]
  have hn0 : norm (0 : Vector3) = 0 := by simp [norm, dot]
  have hangle : (greatArcProperties ⟨1, 0, 0⟩ ⟨-1, 0, 0⟩ ⟨0, 0, 0⟩).inner_angle =
      Real.pi := by
    rw [gap_inner_angle, h1, h2, hcr, hd, hn0]
    exact atan2_zero_neg (by norm_num)
  refine ⟨fun s e c => ⟨greatArcProperties s e c, rfl⟩, hangle, ?_, ?_⟩
  · rw [gap_v3, h1, h2, hcr, cross_zero_left]
    ext <;> simp
  · rw [gap_distance, h1, h2, hcr, hd, hn0, norm_unit_x, one_mul]
    exact atan2_zero_neg (by norm_num)

/-- Claim C5 counterexample: requesting zero points does not raise an
invalid-argument error — sampling returns the empty sequence. -/
theorem claim_C5_counterexample :
    sample_arc ⟨1, 0, 0⟩ ⟨0, 1, 0⟩ ⟨0, 0, 0⟩ 0 = Except.ok [] := rfl

/-- Claim C5 amended: the source never validates the requested count;
for `count = 0` the `np.linspace` call produces an empty array and the
sampler returns an empty sequence rather than raising. -/
theorem claim_C5_count_zero (s e c : Vector3) :
    sample_arc s e c 0 = Except.ok [] ∧ calculate_great_arc s e c 0 = [] :=
  ⟨rfl, rfl⟩

/-- Claim C6 counterexample: the angular-separation operation does not
return the radian `inner_angle`: at the unit quarter arc the returned
scalar is `90`, not `π/2`. -/
theorem claim_C6_counterexample :
    great_arc_angular_separation ⟨1, 0, 0⟩ ⟨0, 1, 0⟩ none ≠
      Except.ok
        ((greatArcProperties ⟨1, 0, 0⟩ ⟨0, 1, 0⟩ ⟨0, 0, 0⟩).inner_angle,
          AngleUnit.degree) := by
  intro h
  have hval : rad2deg
      (greatArcProperties ⟨1, 0, 0⟩ ⟨0, 1, 0⟩ ⟨0, 0, 0⟩).inner_angle =
      (greatArcProperties ⟨1, 0, 0⟩ ⟨0, 1, 0⟩ ⟨0, 0, 0⟩).inner_angle := by
    have h' : (rad2deg
        (greatArcProperties ⟨1, 0, 0⟩ ⟨0, 1, 0⟩ ⟨0, 0, 0⟩).inner_angle,
          AngleUnit.degree) =
        ((greatArcProperties ⟨1, 0, 0⟩ ⟨0, 1, 0⟩ ⟨0, 0, 0⟩).inner_angle,
          AngleUnit.degree) := by
      exact Except.ok.inj h
    exact congrArg Prod.fst h'
  rw [unit_quarter_inner_angle, rad2deg] at hval
  have hpi0 : Real.pi ≠ 0 := Real.pi_ne_zero
  have h90 : Real.pi / 2 * (180 / Real.pi) = 90 := by
    field_simp
    ring
  rw [h90] at hval
  have hlt : Real.pi / 2 < 90 := by
    have := Real.pi_lt_d2
    linarith
  rw [← hval] at hlt
  exact lt_irrefl _ hlt

/-- Claim C6 amended: the operation returns the inner angle converted to
degrees (`rad2deg(inner_angle)` tagged with the degree unit); as a
physical angle this equals `inner_angle` radians — multiplying the
returned scalar by `π/180` recovers the radian inner angle — but the
degree conversion happens inside the function, not in the caller. -/
theorem claim_C6_degrees (s e : Vector3) :
    great_arc_angular_separation s e none =
      Except.ok (rad2deg (greatArcProperties s e 0).inner_angle,
        AngleUnit.degree) ∧
    rad2deg (greatArcProperties s e 0).inner_angle * (Real.pi / 180) =
      (greatArcProperties s e 0).inner_angle := by
  refine ⟨rfl, ?_⟩
  rw [rad2deg]
  have hpi0 : Real.pi ≠ 0 := Real.pi_ne_zero
  field_simp

/-- The point at angle `inner_angle − φ` on the arc from `s` to `e`
coincides with the point at angle `φ` on the arc from `e` to `s`, given
a non-degenerate pair with equal radii. -/
theorem reverse_point (s e c : Vector3)
    (hc : cross (s - c) (e - c) ≠ 0)
    (he : norm (s - c) = norm (e - c)) (φ : ℝ) :
    Real.cos ((greatArcProperties s e c).inner_angle - φ) •
        (greatArcProperties s e c).v1 +
      Real.sin ((greatArcProperties s e c).inner_angle - φ) •
        (greatArcProperties s e c).v3 + c =
    Real.cos φ • (greatArcProperties e s c).v1 +
      Real.sin φ • (greatArcProperties e s c).v3 + c := by
  have he' : dot (s - c) (s - c) = dot (e - c) (e - c) := by
    rw [← sq_norm, ← sq_norm, he]
  have hA := arc_endpoint (s - c) (e - c) hc he'
  have hB := arc_reverse_basis (s - c) (e - c) hc he'
  rw [gap_inner_angle s e c, gap_v1 s e c, gap_v3 s e c, gap_v1 e s c,
    gap_v3 e s c, Real.cos_sub, Real.sin_sub]
  have hAx := congrArg Vector3.x hA
  have hAy := congrArg Vector3.y hA
  have hAz := congrArg Vector3.z hA
  have hBx := congrArg Vector3.x hB
  have hBy := congrArg Vector3.y hB
  have hBz := congrArg Vector3.z hB
  simp only [Vector3.add_x, Vector3.add_y, Vector3.add_z, Vector3.sub_x,
    Vector3.sub_y, Vector3.sub_z, Vector3.smul_x, Vector3.smul_y,
    Vector3.smul_z] at hAx hAy hAz hBx hBy hBz
  ext
  · simp only [Vector3.add_x, Vector3.sub_x, Vector3.smul_x]
    linear_combination Real.cos φ * hAx + Real.sin φ * hBx
  · simp only [Vector3.add_y, Vector3.sub_y, Vector3.smul_y]
    linear_combination Real.cos φ * hAy + Real.sin φ * hBy
  · simp only [Vector3.add_z, Vector3.sub_z, Vector3.smul_z]
    linear_combination Real.cos φ * hAz + Real.sin φ * hBz

/-- Claim C1 counterexample: the claim as stated fails on the code.  On
the non-degenerate equal-radius unit quarter arc with `count = 1`, the
last (sole) sample is the start, not the end; and on the non-degenerate
arc from `(1,0,0)` to `(0,2,0)` (unequal radii) with `count = 2`, the
last sample is `(0,1,0)`, not the end point `(0,2,0)`. -/
theorem claim_C1_counterexample :
    (calculate_great_arc ⟨1, 0, 0⟩ ⟨0, 1, 0⟩ ⟨0, 0, 0⟩ 1)[1 - 1]? ≠
      some ⟨0, 1, 0⟩ ∧
    (calculate_great_arc ⟨1, 0, 0⟩ ⟨0, 2, 0⟩ ⟨0, 0, 0⟩ 2)[2 - 1]? ≠
      some ⟨0, 2, 0⟩ := by
  constructor
  · rw [calc_one]
    intro h
    simp at h
  · rw [arc_two_unequal]
    intro h
    simp at h

/-- Claim C1 amended: for a non-degenerate geometry with equal radii
(`‖start − center‖ = ‖end − center‖`) and every `count ≥ 1`, sampling
produces exactly `count` points whose `i`-th element lies at angle
`inner_angle · i / (count − 1)` in the `(v1, v3)` basis about the
center; for `count = 1` the sole point is the start; the first element
equals the start; and for `count ≥ 2` the last element equals the end. -/
theorem claim_C1_sampling (s e c : Vector3)
    (hc : cross (s - c) (e - c) ≠ 0)
    (he : norm (s - c) = norm (e - c)) (n : ℕ) (hn : 1 ≤ n) :
    (calculate_great_arc s e c n).length = n ∧
    (∀ i : ℕ, i < n → (calculate_great_arc s e c n)[i]? =
      some (Real.cos ((greatArcProperties s e c).inner_angle * i /
            ((n : ℝ) - 1)) • (greatArcProperties s e c).v1 +
        Real.sin ((greatArcProperties s e c).inner_angle * i /
            ((n : ℝ) - 1)) • (greatArcProperties s e c).v3 + c)) ∧
    calculate_great_arc s e c 1 = [s] ∧
    (calculate_great_arc s e c n)[0]? = some s ∧
    (2 ≤ n → (calculate_great_arc s e c n)[n - 1]? = some e) :=
  ⟨calculate_great_arc_length s e c n,
    fun _ hi => calculate_great_arc_get s e c hi,
    calc_one s e c, calc_head s e c hn,
    fun h2 => calc_last s e c hc he h2⟩

/-- Witness for the amended claim C1 at the unit quarter arc with two
points. -/
theorem claim_C1_witness :
    cross ((⟨1, 0, 0⟩ : Vector3) - ⟨0, 0, 0⟩)
        ((⟨0, 1, 0⟩ : Vector3) - ⟨0, 0, 0⟩) ≠ 0 ∧
    norm ((⟨1, 0, 0⟩ : Vector3) - ⟨0, 0, 0⟩) =
      norm ((⟨0, 1, 0⟩ : Vector3) - ⟨0, 0, 0⟩) ∧
    (calculate_great_arc ⟨1, 0, 0⟩ ⟨0, 1, 0⟩ ⟨0, 0, 0⟩ 2)[0]? =
      some ⟨1, 0, 0⟩ ∧
    (calculate_great_arc ⟨1, 0, 0⟩ ⟨0, 1, 0⟩ ⟨0, 0, 0⟩ 2)[2 - 1]? =
      some ⟨0, 1, 0⟩ :=
  ⟨unit_quarter_nondegenerate, unit_quarter_equal_radii,
    (claim_C1_sampling ⟨1, 0, 0⟩ ⟨0, 1, 0⟩ ⟨0, 0, 0⟩ unit_quarter_nondegenerate
      unit_quarter_equal_radii 2 (by norm_num)).2.2.2.1,
    (claim_C1_sampling ⟨1, 0, 0⟩ ⟨0, 1, 0⟩ ⟨0, 0, 0⟩ unit_quarter_nondegenerate
      unit_quarter_equal_radii 2 (by norm_num)).2.2.2.2 (le_refl 2)⟩

/-- Claim C10 counterexample: the claim as stated fails on the code.
For `n = 1` the reversed sample from start to end is the singleton
start, while sampling from end to start gives the singleton end, even
on the non-degenerate equal-radius unit quarter arc; and for unequal
radii it fails at `n = 2` as well. -/
theorem claim_C10_counterexample :
    (calculate_great_arc ⟨1, 0, 0⟩ ⟨0, 1, 0⟩ ⟨0, 0, 0⟩ 1).reverse ≠
      calculate_great_arc ⟨0, 1, 0⟩ ⟨1, 0, 0⟩ ⟨0, 0, 0⟩ 1 ∧
    (calculate_great_arc ⟨1, 0, 0⟩ ⟨0, 2, 0⟩ ⟨0, 0, 0⟩ 2).reverse ≠
      calculate_great_arc ⟨0, 2, 0⟩ ⟨1, 0, 0⟩ ⟨0, 0, 0⟩ 2 := by
  constructor
  · rw [calc_one, calc_one]
    intro h
    have h0 := congrArg (fun l => l[0]?) h
    simp only [List.reverse_cons, List.reverse_nil, List.nil_append,
      List.getElem?_cons_zero, Option.some.injEq] at h0
    have hx := congrArg Vector3.x h0
    norm_num at hx
  · rw [arc_two_unequal, arc_two_swapped]
    intro h
    have h0 := congrArg (fun l => l[0]?) h
    simp only [List.reverse_cons, List.reverse_nil, List.nil_append,
      List.cons_append, List.getElem?_cons_zero, Option.some.injEq] at h0
    have hy := congrArg Vector3.y h0
    norm_num at hy

/-- Claim C10 amended: for a non-degenerate geometry with equal radii
and every `n ≥ 2`, the sample sequence from start to end, reversed,
equals the sample sequence from end to start (exactly, in real
arithmetic). -/
theorem claim_C10_reverse (s e c : Vector3)
    (hc : cross (s - c) (e - c) ≠ 0)
    (he : norm (s - c) = norm (e - c)) (n : ℕ) (hn : 2 ≤ n) :
    (calculate_great_arc s e c n).reverse = calculate_great_arc e s c n := by
  have hlen : (calculate_great_arc s e c n).length = n :=
    calculate_great_arc_length s e c n
  apply List.ext_getElem?
  intro i
  by_cases hi : i < n
  · have hi' : i < (calculate_great_arc s e c n).length := by
      rw [hlen]
      exact hi
    rw [List.getElem?_reverse hi', hlen]
    have hlt : n - 1 - i < n := by omega
    rw [calculate_great_arc_get s e c hlt, calculate_great_arc_get e s c hi]
    have hangle : (greatArcProperties e s c).inner_angle =
        (greatArcProperties s e c).inner_angle := by
      rw [gap_inner_angle, gap_inner_angle, atan2_swap]
    have hne : ((n : ℝ) - 1) ≠ 0 := by
      have h2 : (2 : ℝ) ≤ (n : ℝ) := by exact_mod_cast hn
      linarith
    have hcast : ((n - 1 - i : ℕ) : ℝ) = (n : ℝ) - 1 - (i : ℝ) := by
      rw [Nat.cast_sub (by omega : i ≤ n - 1), Nat.cast_sub (by omega : 1 ≤ n)]
      simp
    have hθ : (greatArcProperties s e c).inner_angle * ((n - 1 - i : ℕ) : ℝ) /
        ((n : ℝ) - 1) =
        (greatArcProperties s e c).inner_angle -
          (greatArcProperties s e c).inner_angle * (i : ℝ) / ((n : ℝ) - 1) := by
      rw [hcast]
      field_simp
      ring
    rw [hθ, hangle, reverse_point s e c hc he]
  · push_neg at hi
    have h1 : (calculate_great_arc s e c n).reverse.length ≤ i := by
      rw [List.length_reverse, hlen]
      exact hi
    have h2 : (calculate_great_arc e s c n).length ≤ i := by
      rw [calculate_great_arc_length]
      exact hi
    rw [List.getElem?_eq_none h1, List.getElem?_eq_none h2]

/-- Witness for the amended claim C10 at the unit quarter arc with two
points. -/
theorem claim_C10_witness :
    cross ((⟨1, 0, 0⟩ : Vector3) - ⟨0, 0, 0⟩)
        ((⟨0, 1, 0⟩ : Vector3) - ⟨0, 0, 0⟩) ≠ 0 ∧
    norm ((⟨1, 0, 0⟩ : Vector3) - ⟨0, 0, 0⟩) =
      norm ((⟨0, 1, 0⟩ : Vector3) - ⟨0, 0, 0⟩) ∧
    (calculate_great_arc ⟨1, 0, 0⟩ ⟨0, 1, 0⟩ ⟨0, 0, 0⟩ 2).reverse =
      calculate_great_arc ⟨0, 1, 0⟩ ⟨1, 0, 0⟩ ⟨0, 0, 0⟩ 2 :=
  ⟨unit_quarter_nondegenerate, unit_quarter_equal_radii,
    claim_C10_reverse ⟨1, 0, 0⟩ ⟨0, 1, 0⟩ ⟨0, 0, 0⟩ unit_quarter_nondegenerate
      unit_quarter_equal_radii 2 (le_refl 2)⟩

end GreatArc
